import Mathlib

/-!
Verification of the facial-expression repository's two tools
(port-occupancy scanner and local password manager) against their
natural-language specification.

The Python sources are shallowly embedded: byte strings become `List Nat`,
stateful classes become explicit state-passing functions, fallible code
returns `Option`, and randomness (salts, IVs, random picks, shuffles) is
passed in as explicit inputs.  External library primitives (the AES block
cipher, PBKDF2, base64, UTF-8, JSON) are abstracted as components of a
`CryptoEnv` record carrying exactly the algebraic laws the code relies on
(block cipher invertibility and length preservation, codec round-trips);
everything written by the repository itself is translated directly from
the source.
-/

namespace PwMgr

/-- Byte strings (Python `bytes`); bytes are unconstrained `Nat`s. -/
abbrev Bytes := List Nat

/-- AES block size (`AES.block_size` in the source): 16 bytes. -/
def blockSize : Nat := 16

/-- Fuel-driven chunking of a byte string into consecutive 16-byte blocks
(the block traversal implicit in `AES.MODE_CBC`).  Structural recursion on
the fuel so the kernel can evaluate it. -/
def chunksFuel : Nat → Bytes → List Bytes
  | 0, _ => []
  | _, [] => []
  | fuel + 1, d => d.take blockSize :: chunksFuel fuel (d.drop blockSize)

/-- Chunk a byte string into its consecutive 16-byte blocks. -/
def chunks16 (d : Bytes) : List Bytes :=
  chunksFuel d.length d

/-- Byte-wise XOR of two byte strings (the CBC chaining operation). -/
def bxor (a b : Bytes) : Bytes :=
  List.zipWith Nat.xor a b

/-- `CryptoService._pad_data`, translated from the source: PKCS#7 padding.
`padding_length = AES.block_size - (len(data) % AES.block_size)` and that
many copies of the value `padding_length` are appended. -/
def _pad_data (data : Bytes) : Bytes :=
  let padding_length := blockSize - data.length % blockSize
  data ++ List.replicate padding_length padding_length

/-- `CryptoService._unpad_data`, translated from the source:
`padding_length = data[-1]; return data[:-padding_length]`.  On empty
input `data[-1]` raises (caught by the caller): modelled as `none`.
Python's slice `data[:-0]` is empty, hence the `n = 0` case. -/
def _unpad_data (data : Bytes) : Option Bytes :=
  match data.getLast? with
  | none => none
  | some n => some (if n = 0 then [] else data.take (data.length - n))

/-- CBC-mode encryption over a list of plaintext blocks: each block is
XORed with the previous ciphertext block (initially the IV) and passed
through the block cipher `E key`. -/
def cbcEncBlocks (E : Bytes → Bytes → Bytes) (key : Bytes) : Bytes → List Bytes → List Bytes
  | _, [] => []
  | prev, b :: bs =>
    let c := E key (bxor b prev)
    c :: cbcEncBlocks E key c bs

/-- CBC-mode decryption over a list of ciphertext blocks. -/
def cbcDecBlocks (D : Bytes → Bytes → Bytes) (key : Bytes) : Bytes → List Bytes → List Bytes
  | _, [] => []
  | prev, c :: cs =>
    bxor (D key c) prev :: cbcDecBlocks D key c cs

/-- `AES.new(key, AES.MODE_CBC, iv).encrypt`, with the block cipher
abstracted as `E`. -/
def cbcEncrypt (E : Bytes → Bytes → Bytes) (key iv data : Bytes) : Bytes :=
  (cbcEncBlocks E key iv (chunks16 data)).flatten

/-- `AES.new(key, AES.MODE_CBC, iv).decrypt`, with the inverse block
cipher abstracted as `D`. -/
def cbcDecrypt (D : Bytes → Bytes → Bytes) (key iv ct : Bytes) : Bytes :=
  (cbcDecBlocks D key iv (chunks16 ct)).flatten

end PwMgr


namespace PwMgr

/-- The three-field result of `CryptoService.encrypt_data`: base64-coded
ciphertext, salt and IV (the base64 code space is abstract, kept as `Bytes`). -/
structure EncBundle where
  encrypted_data : Bytes
  salt : Bytes
  iv : Bytes
deriving DecidableEq

/-- `PasswordEntry` from `core/models.py`.  The `encrypted_password` field
holds the JSON-serialized per-entry ciphertext bundle; the JSON wrapping
of a bundle is modelled transparently.  Timestamps are clock ticks. -/
structure PwEntry where
  platform : String
  username : String
  encrypted_password : EncBundle
  notes : String
  id : String
  created_at : Nat
  updated_at : Nat
  expires_at : Nat
deriving DecidableEq

/-- `MasterConfig` from `core/models.py`. -/
structure MasterConfig where
  password_hash : Bytes
  salt : Bytes
  clipboard_timeout : Nat
  password_expiry_days : Nat
  auto_backup : Bool
  backup_interval : Nat
  created_at : Nat
  updated_at : Nat
deriving DecidableEq

/-- `AppSettings` from `core/models.py`. -/
structure AppSettings where
  theme : String
  window_width : Nat
  window_height : Nat
  window_x : Nat
  window_y : Nat
  auto_lock_timeout : Nat
  show_password_strength : Bool
  confirm_delete : Bool
  updated_at : Nat
deriving DecidableEq

/-- `DataStore` from `core/models.py`. -/
structure DataStore where
  entries : List PwEntry
  master_config : Option MasterConfig
  app_settings : AppSettings
  version : String
deriving DecidableEq

/-- The external cryptographic and codec primitives used by
`security/crypto.py` and `data/repository.py`, abstracted with exactly the
laws the source relies on: an invertible, length-preserving AES-256 block
cipher, the PBKDF2 key-derivation function, and round-tripping UTF-8,
base64 and JSON codecs (the JSON laws are supplied pointwise by theorems). -/
structure CryptoEnv where
  encBlock : Bytes → Bytes → Bytes
  decBlock : Bytes → Bytes → Bytes
  dec_enc : ∀ k b, b.length = blockSize → decBlock k (encBlock k b) = b
  enc_length : ∀ k b, b.length = blockSize → (encBlock k b).length = blockSize
  kdf : Bytes → Bytes → Bytes
  utf8Enc : String → Bytes
  utf8Dec : Bytes → Option String
  utf8_dec_enc : ∀ s, utf8Dec (utf8Enc s) = some s
  b64Enc : Bytes → Bytes
  b64Dec : Bytes → Option Bytes
  b64_dec_enc : ∀ b, b64Dec (b64Enc b) = some b
  jsonEnc : DataStore → String
  jsonDec : String → Option DataStore

/-- `CryptoService.derive_key`: PBKDF2 over the UTF-8 password and salt. -/
def derive_key (env : CryptoEnv) (password : String) (salt : Bytes) : Bytes :=
  env.kdf (env.utf8Enc password) salt

/-- `CryptoService.encrypt_data`, translated from the source.  The salt
(caller-supplied or freshly generated) and the freshly generated IV are
explicit inputs standing for the randomness. -/
def encrypt_data (env : CryptoEnv) (data password : String) (salt iv : Bytes) : EncBundle :=
  let key := derive_key env password salt
  let padded_data := _pad_data (env.utf8Enc data)
  let ct := cbcEncrypt env.encBlock key iv padded_data
  { encrypted_data := env.b64Enc ct, salt := env.b64Enc salt, iv := env.b64Enc iv }

/-- `CryptoService.decrypt_data`, translated from the source.  The
enclosing `try/except` that converts any failure into `None` becomes the
`Option` plumbing. -/
def decrypt_data (env : CryptoEnv) (info : EncBundle) (password : String) : Option String :=
  match env.b64Dec info.encrypted_data, env.b64Dec info.salt, env.b64Dec info.iv with
  | some ct, some salt, some iv =>
    let key := derive_key env password salt
    match _unpad_data (cbcDecrypt env.decBlock key iv ct) with
    | some unpadded => env.utf8Dec unpadded
    | none => none
  | _, _, _ => none

/-- `CryptoService.hash_password` (hash, salt), with the salt explicit. -/
def hash_password (env : CryptoEnv) (password : String) (salt : Bytes) : Bytes × Bytes :=
  (env.b64Enc (env.kdf (env.utf8Enc password) salt), env.b64Enc salt)

/-- `CryptoService.verify_password`, translated from the source: decode the
salt, recompute the PBKDF2 hash and compare the encoded values. -/
def verify_password (env : CryptoEnv) (password : String) (stored_hash salt : Bytes) : Bool :=
  match env.b64Dec salt with
  | none => false
  | some salt_bytes => decide (env.b64Enc (env.kdf (env.utf8Enc password) salt_bytes) = stored_hash)

end PwMgr


namespace PwMgr

/-- The (platform, username) key on which `DataStore` enforces uniqueness. -/
def entryKey (e : PwEntry) : String × String :=
  (e.platform, e.username)

/-- The uniqueness invariant of §3.2: no two entries share (platform, username). -/
def uniquePairs (es : List PwEntry) : Prop :=
  (es.map entryKey).Nodup

instance (es : List PwEntry) : Decidable (uniquePairs es) := by
  unfold uniquePairs
  infer_instance

/-- `DataStore.add_entry`, translated from the source: reject when an
existing entry has the same platform and username, else append. -/
def add_entry (store : DataStore) (entry : PwEntry) : Bool × DataStore :=
  if store.entries.any (fun ex => ex.platform = entry.platform && ex.username = entry.username) then
    (false, store)
  else
    (true, { store with entries := store.entries ++ [entry] })

/-- `DataStore.get_entry_by_id`: first entry with the given id. -/
def get_entry_by_id (store : DataStore) (entry_id : String) : Option PwEntry :=
  store.entries.find? (fun e => e.id = entry_id)

/-- The list traversal of `DataStore.update_entry`: replace the first entry
whose id matches, forcing the stored id and `created_at` onto the updated
entry and refreshing `updated_at` (`update_timestamp`). -/
def update_entry_list (entry_id : String) (updated : PwEntry) (now : Nat) :
    List PwEntry → Bool × List PwEntry
  | [] => (false, [])
  | e :: rest =>
    if e.id = entry_id then
      (true, { updated with id := entry_id, created_at := e.created_at, updated_at := now } :: rest)
    else
      let r := update_entry_list entry_id updated now rest
      (r.1, e :: r.2)

/-- `DataStore.update_entry`, translated from the source. -/
def update_entry (store : DataStore) (entry_id : String) (updated : PwEntry) (now : Nat) :
    Bool × DataStore :=
  let r := update_entry_list entry_id updated now store.entries
  (r.1, { store with entries := r.2 })

/-- The list traversal of `DataStore.delete_entry`: drop the first entry
whose id matches. -/
def delete_entry_list (entry_id : String) : List PwEntry → Bool × List PwEntry
  | [] => (false, [])
  | e :: rest =>
    if e.id = entry_id then
      (true, rest)
    else
      let r := delete_entry_list entry_id rest
      (r.1, e :: r.2)

/-- `DataStore.delete_entry`, translated from the source. -/
def delete_entry (store : DataStore) (entry_id : String) : Bool × DataStore :=
  let r := delete_entry_list entry_id store.entries
  (r.1, { store with entries := r.2 })

end PwMgr

namespace PwMgr

/-- The state of a `DataRepository` (`data/repository.py`): the encrypted
vault file on disk, the live `DataStore` and the in-memory master password. -/
structure Repo where
  data_file : Option EncBundle
  data_store : Option DataStore
  master_password : Option String
deriving DecidableEq

/-- `DataRepository.is_loaded`. -/
def Repo.is_loaded (repo : Repo) : Bool :=
  repo.data_store.isSome && repo.master_password.isSome

/-- `DataRepository._save_to_file`: serialize the whole store to JSON,
encrypt it under the in-memory master password with a fresh salt and IV,
and replace the vault file. -/
def _save_to_file (env : CryptoEnv) (repo : Repo) (salt iv : Bytes) : Bool × Repo :=
  match repo.data_store, repo.master_password with
  | some store, some mp =>
    (true, { repo with data_file := some (encrypt_data env (env.jsonEnc store) mp salt iv) })
  | _, _ => (false, repo)

/-- `DataRepository.save_database`. -/
def save_database (env : CryptoEnv) (repo : Repo) (salt iv : Bytes) : Bool × Repo :=
  match repo.data_store, repo.master_password with
  | some _, some _ => _save_to_file env repo salt iv
  | _, _ => (false, repo)

/-- `DataRepository.load_database`, translated from the source: decrypt the
vault file, parse the JSON payload into a `DataStore` (which is assigned
before verification, as in the source), then re-verify the password
against the stored master-config hash and salt. -/
def load_database (env : CryptoEnv) (repo : Repo) (password : String) : Bool × Repo :=
  match repo.data_file with
  | none => (false, repo)
  | some bundle =>
    match decrypt_data env bundle password with
    | none => (false, repo)
    | some decrypted_json =>
      match env.jsonDec decrypted_json with
      | none => (false, repo)
      | some store =>
        let repo1 := { repo with data_store := some store }
        let ok := match store.master_config with
          | none => true
          | some mc => verify_password env password mc.password_hash mc.salt
        if ok then (true, { repo1 with master_password := some password }) else (false, repo1)

/-- `DataRepository.decrypt_password`: decrypt an entry's stored ciphertext
bundle under the in-memory master password. -/
def decrypt_password (env : CryptoEnv) (repo : Repo) (entry : PwEntry) : Option String :=
  match repo.data_store, repo.master_password with
  | some _, some mp => decrypt_data env entry.encrypted_password mp
  | _, _ => none

/-- The re-encryption loop of `DataRepository.change_master_password`:
entries are mutated in place one by one; on the first entry that fails to
decrypt under the old password the loop aborts, leaving that entry and its
successors untouched.  `salts`/`ivs` supply the fresh randomness per entry. -/
def rotate_entries (env : CryptoEnv) (old new : String) (salts ivs : Nat → Bytes) (now : Nat) :
    List PwEntry → Nat → Bool × List PwEntry
  | [], _ => (true, [])
  | e :: rest, i =>
    match decrypt_data env e.encrypted_password old with
    | none => (false, e :: rest)
    | some decrypted_password =>
      let e2 := { e with
        encrypted_password := encrypt_data env decrypted_password new (salts i) (ivs i),
        updated_at := now }
      let r := rotate_entries env old new salts ivs now rest (i + 1)
      (r.1, e2 :: r.2)

/-- `DataRepository.change_master_password`, translated from the source:
require a loaded session and `old` equal to the in-memory password,
re-encrypt every entry, rotate the master-config hash and salt, update the
in-memory password and save.  A missing master config raises inside the
`try` (attribute access on `None`) and is caught, returning false. -/
def change_master_password (env : CryptoEnv) (repo : Repo) (old new : String)
    (entrySalts entryIvs : Nat → Bytes) (hashSalt fileSalt fileIv : Bytes) (now : Nat) :
    Bool × Repo :=
  match repo.data_store, repo.master_password with
  | some store, some mp =>
    if old ≠ mp then (false, repo)
    else
      let r := rotate_entries env old new entrySalts entryIvs now store.entries 0
      if r.1 = false then
        (false, { repo with data_store := some { store with entries := r.2 } })
      else
        match store.master_config with
        | none => (false, { repo with data_store := some { store with entries := r.2 } })
        | some mc =>
          let hp := hash_password env new hashSalt
          let mc2 := { mc with password_hash := hp.1, salt := hp.2, updated_at := now }
          let store2 := { store with entries := r.2, master_config := some mc2 }
          let repo2 := { repo with data_store := some store2, master_password := some new }
          save_database env repo2 fileSalt fileIv
  | _, _ => (false, repo)

end PwMgr

namespace PwMgr

/-- Modelled from the spec: `config/constants.py` is not under src; §4.11
fixes "max login attempts 3" and §4.17 names the constant. -/
def MAX_LOGIN_ATTEMPTS : Nat := 3

/-- The 5-minute lockout set by `AuthenticationService.authenticate`
(`lockout_duration = 5 * 60` in the source). -/
def lockout_duration : Nat := 5 * 60

/-- The security-relevant state of an `AuthenticationService`
(`core/authentication.py`); times are seconds on an abstract clock. -/
structure AuthState where
  failed_attempts : Nat
  lockout_until : Option Nat
  is_authenticated : Bool
  login_time : Option Nat
  last_activity_time : Option Nat
deriving DecidableEq

/-- A fresh `AuthenticationService` as built by `__init__`. -/
def initialAuthState : AuthState :=
  { failed_attempts := 0, lockout_until := none, is_authenticated := false,
    login_time := none, last_activity_time := none }

/-- The structured result dictionary returned by `authenticate`; absent
keys become `none`. -/
structure AuthResult where
  success : Bool
  locked_out : Bool
  remaining_time : Option Nat
  remaining_attempts : Option Nat
deriving DecidableEq

/-- `AuthenticationService.is_locked_out`, translated from the source: an
expired lockout is cleared lazily (also resetting the counter). -/
def is_locked_out (st : AuthState) (now : Nat) : Bool × AuthState :=
  match st.lockout_until with
  | none => (false, st)
  | some t =>
    if now ≥ t then
      (false, { st with lockout_until := none, failed_attempts := 0 })
    else
      (true, st)

/-- `AuthenticationService.get_lockout_remaining_time`, translated from the
source: `none` when not locked out, else the seconds remaining. -/
def get_lockout_remaining_time (st : AuthState) (now : Nat) : Option Nat × AuthState :=
  match is_locked_out st now with
  | (false, st1) => (none, st1)
  | (true, st1) =>
    match st1.lockout_until with
    | some t => (some (t - now), st1)
    | none => (none, st1)

/-- `AuthenticationService.authenticate`, translated from the source.  The
password string and the outcome of `repository.load_database(password)`
are explicit inputs. -/
def authenticate (st : AuthState) (now : Nat) (password : String) (load_success : Bool) :
    AuthResult × AuthState :=
  match is_locked_out st now with
  | (true, st1) =>
    let r := get_lockout_remaining_time st1 now
    ({ success := false, locked_out := true, remaining_time := r.1, remaining_attempts := none },
      r.2)
  | (false, st1) =>
    if password = "" then
      ({ success := false, locked_out := false, remaining_time := none,
         remaining_attempts := none }, st1)
    else if load_success then
      let st2 : AuthState :=
        { st1 with
          is_authenticated := true
          login_time := some now
          last_activity_time := some now
          failed_attempts := 0
          lockout_until := none }
      ({ success := true, locked_out := false, remaining_time := none,
         remaining_attempts := none }, st2)
    else
      let fa := st1.failed_attempts + 1
      if fa ≥ MAX_LOGIN_ATTEMPTS then
        ({ success := false, locked_out := true, remaining_time := some lockout_duration,
           remaining_attempts := none },
         { st1 with failed_attempts := fa, lockout_until := some (now + lockout_duration) })
      else
        ({ success := false, locked_out := false, remaining_time := none,
           remaining_attempts := some (MAX_LOGIN_ATTEMPTS - fa) },
         { st1 with failed_attempts := fa })

end PwMgr

namespace PortScan

/-- `PortStatus` from `src/models/data_models.py`. -/
inductive PortStatus where
  | LISTEN
  | ESTABLISHED
  | CLOSED
  | TIME_WAIT
  | UNKNOWN
deriving DecidableEq

/-- `Protocol` from `src/models/data_models.py`. -/
inductive Protocol where
  | TCP
  | UDP
deriving DecidableEq

/-- `ScanType` from `src/models/data_models.py`. -/
inductive ScanType where
  | LOCAL
  | REMOTE
deriving DecidableEq

/-- `PortInfo` from `src/models/data_models.py` (with the status/protocol
already coerced to their enum types, as `__post_init__` guarantees). -/
structure PortInfo where
  port : Int
  status : PortStatus
  protocol : Protocol
  local_address : String
  remote_address : String
  pid : Option Int
  process_name : Option String
deriving DecidableEq

/-- `PortInfo.is_occupied`: status is LISTEN or ESTABLISHED. -/
def PortInfo.is_occupied (p : PortInfo) : Bool :=
  p.status = PortStatus.LISTEN || p.status = PortStatus.ESTABLISHED

/-- `ScanResult` from `src/models/data_models.py`; `total_ports` and
`occupied_ports` are stored fields recomputed by `__post_init__`. -/
structure ScanResult where
  scan_time : Nat
  scan_type : ScanType
  port_info_list : List PortInfo
  success : Bool
  error_message : String
  scan_duration : ℚ
  total_ports : Nat
  occupied_ports : Nat
deriving DecidableEq

/-- `ScanResult.__post_init__`: whatever `total_ports`/`occupied_ports`
the caller passed, they are recomputed from `port_info_list`. -/
def mkScanResult (scan_time : Nat) (scan_type : ScanType) (port_info_list : List PortInfo)
    (success : Bool) (error_message : String) (scan_duration : ℚ)
    (_total_ports _occupied_ports : Nat) : ScanResult :=
  { scan_time := scan_time
    scan_type := scan_type
    port_info_list := port_info_list
    success := success
    error_message := error_message
    scan_duration := scan_duration
    total_ports := port_info_list.length
    occupied_ports := (port_info_list.filter PortInfo.is_occupied).length }

/-- `ScanResult.free_ports` = total − occupied. -/
def ScanResult.free_ports (r : ScanResult) : Nat :=
  r.total_ports - r.occupied_ports

/-- `ScanResult.occupation_rate` = occupied/total × 100 (0 when total=0);
the float division is modelled over ℚ. -/
def ScanResult.occupation_rate (r : ScanResult) : ℚ :=
  if r.total_ports = 0 then 0
  else ((r.occupied_ports : ℚ) / (r.total_ports : ℚ)) * 100

/-- Python strings are modelled as character lists here so that every
parsing step is structurally recursive.  `Python str.split(sep)` for a
one-character separator (`"".split(',') == ['']` included). -/
def pySplit (sep : Char) : List Char → List (List Char)
  | [] => [[]]
  | c :: rest =>
    match pySplit sep rest with
    | [] => [[]]
    | r :: rs => if c = sep then [] :: r :: rs else (c :: r) :: rs

/-- Python `str.strip()`: drop leading and trailing whitespace. -/
def pyStrip (l : List Char) : List Char :=
  ((l.dropWhile Char.isWhitespace).reverse.dropWhile Char.isWhitespace).reverse

/-- Python `int(token)` digit parsing: a nonempty digit string.
(Python additionally allows underscore digit separators, not modelled.) -/
def digitsToNat : List Char → Option Nat
  | [] => none
  | cs =>
    if cs.all Char.isDigit then
      some (cs.foldl (fun a c => a * 10 + (c.toNat - 48)) 0)
    else
      none

/-- Python `int(s)`: strip surrounding whitespace, optional sign, digits. -/
def pyInt (s : List Char) : Option Int :=
  match pyStrip s with
  | [] => none
  | c :: rest =>
    if c = '-' then (digitsToNat rest).map (fun n => -(n : Int))
    else if c = '+' then (digitsToNat rest).map (fun n => (n : Int))
    else (digitsToNat (c :: rest)).map (fun n => (n : Int))

/-- Python `part.split('-', 1)` on a token known to contain a hyphen:
the text before the first hyphen and everything after it. -/
def splitDash1 : List Char → List Char × List Char
  | [] => ([], [])
  | c :: rest =>
    if c = '-' then ([], rest)
    else
      let r := splitDash1 rest
      (c :: r.1, r.2)

/-- The inclusive integer range `range(start, end+1)` of the source's
range expansion (empty when `start > end`). -/
def intRange (lo hi : Int) : List Int :=
  (List.range (hi + 1 - lo).toNat).map (fun i => lo + (i : Int))

/-- The per-token branch of `ScanConfig.from_port_string`: expand a
hyphenated token inclusively when both halves parse and start ≤ end;
otherwise parse a single integer; unparseable tokens yield nothing. -/
def parseToken (part : List Char) : List Int :=
  if part.contains '-' then
    match pyInt (splitDash1 part).1, pyInt (splitDash1 part).2 with
    | some lo, some hi => if lo ≤ hi then intRange lo hi else []
    | _, _ => []
  else
    match pyInt part with
    | some p => [p]
    | none => []

/-- The port-collection loop of `ScanConfig.from_port_string`: split on
commas, strip each token, process each token. -/
def collectPorts (port_string : List Char) : List Int :=
  ((pySplit ',' port_string).map pyStrip).flatMap parseToken

/-- Python `sorted(list(set(l)))`: the strictly sorted list of distinct
values, via sorted insertion. -/
def insertSorted (x : Int) : List Int → List Int
  | [] => [x]
  | y :: ys =>
    if x < y then x :: y :: ys
    else if x = y then y :: ys
    else y :: insertSorted x ys

/-- Deduplicate and sort, as `sorted(list(set(valid_ports)))` does. -/
def sortedDedup (l : List Int) : List Int :=
  l.foldr insertSorted []

/-- `ScanConfig.__post_init__` applied to the `port_range` field: keep the
ports in 1–65535, deduplicate and sort. -/
def postInitPortRange (ports : List Int) : List Int :=
  sortedDedup (ports.filter (fun p => 1 ≤ p && p ≤ 65535))

/-- `ScanConfig.from_port_string` restricted to the resulting `port_range`
(the only field the claim concerns): collect, then `__post_init__`. -/
def from_port_string (port_string : List Char) : List Int :=
  postInitPortRange (collectPorts port_string)

/-- `RemoteConfig` from `src/models/data_models.py`. -/
structure RemoteConfig where
  host : String
  username : String
  password : String
  private_key_path : String
  port : Int
  timeout : Int
  name : String
deriving DecidableEq

/-- The `remote_servers.json` document written by
`ConfigManager.save_remote_configs`: every profile is serialized with its
`password` field blanked. -/
def save_remote_configs (configs : List RemoteConfig) : List RemoteConfig :=
  configs.map (fun c => { c with password := "" })

end PortScan

namespace PwMgr

/-- `string.ascii_lowercase` (`PasswordGenerator.__init__`). -/
def lowercase : String := "abcdefghijklmnopqrstuvwxyz"

/-- `string.ascii_uppercase`. -/
def uppercase : String := "ABCDEFGHIJKLMNOPQRSTUVWXYZ"

/-- `string.digits`. -/
def digits : String := "0123456789"

/-- The fixed symbol pool of `PasswordGenerator.__init__`. -/
def symbols : String := "!@#$%^&*()_+-=[]\x7b\x7d|;:,.<>?"

/-- `random.choice(seq)`, with the random index supplied as input. -/
def pyChoice (l : List Char) (n : Nat) : Char :=
  l.getD (n % l.length) 'a'

/-- The `charset` built by `generate_password`: the concatenation of the
enabled pools. -/
def gpCharset (include_lowercase include_uppercase include_digits include_symbols : Bool) :
    List Char :=
  (if include_lowercase then lowercase.toList else []) ++
  (if include_uppercase then uppercase.toList else []) ++
  (if include_digits then digits.toList else []) ++
  (if include_symbols then symbols.toList else [])

/-- The `required_chars` built by `generate_password`: one `random.choice`
pick from each enabled pool (pick indices are drawn from the stream). -/
def gpRequired (include_lowercase include_uppercase include_digits include_symbols : Bool)
    (picks : Nat → Nat) : List Char :=
  (if include_lowercase then [pyChoice lowercase.toList (picks 0)] else []) ++
  (if include_uppercase then [pyChoice uppercase.toList (picks 1)] else []) ++
  (if include_digits then [pyChoice digits.toList (picks 2)] else []) ++
  (if include_symbols then [pyChoice symbols.toList (picks 3)] else [])

/-- `PasswordGenerator.generate_password`, translated from the source.
The random picks are an input stream `picks` (one index per call of
`random.choice`, required picks first, then the fill) and
`random.shuffle` is an input permutation `shuffle`.  `ValueError`s
(length < 4, no class enabled) become `none`. -/
def generate_password (length : Nat)
    (include_lowercase include_uppercase include_digits include_symbols : Bool)
    (picks : Nat → Nat) (shuffle : List Char → List Char) : Option String :=
  if length < 4 then none
  else
    if gpCharset include_lowercase include_uppercase include_digits include_symbols = [] then
      none
    else
      some (String.mk (shuffle
        ((gpRequired include_lowercase include_uppercase include_digits include_symbols picks ++
          (List.range (length
              - (gpRequired include_lowercase include_uppercase include_digits include_symbols
                  picks).length)).map
            (fun i => pyChoice
              (gpCharset include_lowercase include_uppercase include_digits include_symbols)
              (picks (4 + i)))).take length)))

end PwMgr

namespace PortScan

/-- The spec's per-token rule, which (unlike the source) does not state a
separate start ≤ end guard: the inclusive range is empty then anyway. -/
def specParseToken (t : List Char) : List Int :=
  if t.contains '-' then
    match pyInt (splitDash1 t).1, pyInt (splitDash1 t).2 with
    | some lo, some hi => intRange lo hi
    | _, _ => []
  else
    match pyInt t with
    | some p => [p]
    | none => []

/-- Modelled from the spec (§4.1, §3.1), for the refinement claim about
`from_port_string`: split on commas, trim whitespace, expand each
hyphenated token inclusively when both halves parse as integers (dropping
unparseable tokens silently), parse other tokens as single integers
(dropping unparseable ones), keep the valid 1–65535 ports, deduplicate
and sort. -/
def specPortRange (s : List Char) : List Int :=
  sortedDedup
    ((((pySplit ',' s).map pyStrip).flatMap specParseToken).filter
      (fun p => 1 ≤ p && p ≤ 65535))

end PortScan

namespace PwMgr

/-- Concrete character-code model of UTF-8 for witness environments. -/
def strBytes (s : String) : Bytes :=
  s.toList.map Char.toNat

/-- Concrete inverse of `strBytes` for witness environments. -/
def bytesStr (b : Bytes) : Option String :=
  some (String.mk (b.map Char.ofNat))

/-- A concrete all-zero 16-byte IV for witnesses. -/
def iv16 : Bytes :=
  List.replicate blockSize 0

/-- Witness environment for the crypto claims: the block cipher is the
identity permutation (a legitimate instance of the abstract cipher laws)
and the key-derivation function is a constant — the collision instance:
real PBKDF2 maps arbitrarily many passwords onto 32-byte keys, so
distinct passwords deriving the same key exist. -/
def envC : CryptoEnv where
  encBlock := fun _ b => b
  decBlock := fun _ b => b
  dec_enc := fun _ _ _ => rfl
  enc_length := fun _ _ h => h
  kdf := fun _ _ => []
  utf8Enc := strBytes
  utf8Dec := bytesStr
  utf8_dec_enc := fun s => by
    cases s with
    | mk d =>
      simp only [strBytes, bytesStr, List.map_map]
      congr 1
      rw [show Char.ofNat ∘ Char.toNat = id from funext Char.ofNat_toNat, List.map_id]
      rfl
  b64Enc := fun b => 0 :: b
  b64Dec := fun b => match b with | 0 :: r => some r | _ => none
  b64_dec_enc := fun _ => rfl
  jsonEnc := fun _ => ""
  jsonDec := fun _ => none

/-- Witness-environment builder for the repository claims: identity block
cipher, password-distinguishing key derivation, pluggable JSON codec. -/
def mkEnvR (jE : DataStore → String) (jD : String → Option DataStore) : CryptoEnv where
  encBlock := fun _ b => b
  decBlock := fun _ b => b
  dec_enc := fun _ _ _ => rfl
  enc_length := fun _ _ h => h
  kdf := fun p _ => p
  utf8Enc := strBytes
  utf8Dec := bytesStr
  utf8_dec_enc := fun s => by
    cases s with
    | mk d =>
      simp only [strBytes, bytesStr, List.map_map]
      congr 1
      rw [show Char.ofNat ∘ Char.toNat = id from funext Char.ofNat_toNat, List.map_id]
      rfl
  b64Enc := fun b => b
  b64Dec := fun b => some b
  b64_dec_enc := fun _ => rfl
  jsonEnc := jE
  jsonDec := jD

/-- The fixed token standing for the JSON serialization of the witness
vault (the JSON text itself is opaque to the claims). -/
def vaultJson : String := "vault-json"

/-- A JSON-less variant of the witness repository environment, used only
to compute the concrete rotated store. -/
def envRBase : CryptoEnv :=
  mkEnvR (fun _ => vaultJson) (fun _ => none)

/-- Default `AppSettings` (`AppSettings()` in the source). -/
def appDefaults : AppSettings where
  theme := "default"
  window_width := 800
  window_height := 600
  window_x := 100
  window_y := 100
  auto_lock_timeout := 300
  show_password_strength := true
  confirm_delete := true
  updated_at := 0

/-- A concrete vault entry whose password is encrypted under the old
master password. -/
def entry3 : PwEntry where
  platform := "GitHub"
  username := "alice"
  encrypted_password := encrypt_data envRBase "s3cr3t" "oldpw123" [7] iv16
  notes := ""
  id := "e1"
  created_at := 0
  updated_at := 0
  expires_at := 90

/-- A concrete master config hashed from the old master password. -/
def mc3 : MasterConfig where
  password_hash := (hash_password envRBase "oldpw123" [9]).1
  salt := (hash_password envRBase "oldpw123" [9]).2
  clipboard_timeout := 10
  password_expiry_days := 90
  auto_backup := true
  backup_interval := 7
  created_at := 0
  updated_at := 0

/-- The concrete loaded store for the rotation witness. -/
def store3 : DataStore where
  entries := [entry3]
  master_config := some mc3
  app_settings := appDefaults
  version := "1.0.0"

/-- The concrete loaded repository for the rotation witness. -/
def repo3 : Repo where
  data_file := none
  data_store := some store3
  master_password := some "oldpw123"

/-- The result of rotating the witness repository's master password from
"oldpw123" to "newpw456" (computed with the JSON-less environment; the
rotation itself never consults the JSON codec). -/
def repo3res : Bool × Repo :=
  change_master_password envRBase repo3 "oldpw123" "newpw456"
    (fun _ => [5]) (fun _ => iv16) [11] [13] iv16 1

/-- The JSON decoder of the witness environment: the canonical vault text
parses back to the rotated store, everything else fails. -/
def jD3 (s : String) : Option DataStore :=
  if s = vaultJson then repo3res.2.data_store else none

/-- The witness environment for the master-password-rotation claim. -/
def envR : CryptoEnv :=
  mkEnvR (fun _ => vaultJson) jD3

/-- The rotated store of the witness scenario. -/
def store3W : DataStore :=
  (repo3res.2.data_store).getD store3

end PwMgr


namespace PwMgr

theorem chunksFuel_flatten (fuel : Nat) (d : Bytes) (h : d.length ≤ fuel) :
    (chunksFuel fuel d).flatten = d := by
  induction fuel generalizing d with
  | zero =>
    cases d with
    | nil => rfl
    | cons x xs => exact absurd h (by simp)
  | succ n ih =>
    cases d with
    | nil => rfl
    | cons x xs =>
      simp only [chunksFuel, List.flatten_cons]
      have hq : ((x :: xs).drop blockSize).length ≤ n := by
        have hx : (x :: xs).length ≤ n + 1 := h
        have hlen : ((x :: xs).drop blockSize).length = (x :: xs).length - blockSize := by
          simp
        rw [hlen]
        simp only [blockSize]
        omega
      rw [ih _ hq]
      exact List.take_append_drop blockSize (x :: xs)

/-- Chunking then flattening recovers the byte string. -/
theorem chunks16_flatten (d : Bytes) : (chunks16 d).flatten = d :=
  chunksFuel_flatten d.length d (Nat.le_refl _)

theorem length_pos_of_chunksFuel_mem {fuel : Nat} {d b : Bytes}
    (h : b ∈ chunksFuel fuel d) : d ≠ [] := by
  intro hd
  subst hd
  cases fuel <;> simp [chunksFuel] at h

theorem chunksFuel_length_eq (fuel : Nat) (d : Bytes) (hf : d.length ≤ fuel)
    (hd : blockSize ∣ d.length) :
    ∀ b ∈ chunksFuel fuel d, b.length = blockSize := by
  induction fuel generalizing d with
  | zero =>
    intro b hb
    have : d = [] := List.eq_nil_of_length_eq_zero (Nat.le_zero.mp hf)
    subst this
    simp [chunksFuel] at hb
  | succ n ih =>
    intro b hb
    cases d with
    | nil => simp [chunksFuel] at hb
    | cons x xs =>
      simp only [chunksFuel, List.mem_cons] at hb
      rcases hb with hb | hb
      · subst hb
        have h16 : blockSize ≤ (x :: xs).length := Nat.le_of_dvd (by simp) hd
        simpa using Nat.min_eq_left h16
      · refine ih ((x :: xs).drop blockSize) ?_ ?_ b hb
        · have hlen : ((x :: xs).drop blockSize).length = (x :: xs).length - blockSize := by
            simp
          have hx : (x :: xs).length ≤ n + 1 := hf
          rw [hlen]
          simp only [blockSize]
          omega
        · have hlen : ((x :: xs).drop blockSize).length = (x :: xs).length - blockSize := by
            simp
          rw [hlen]
          exact Nat.dvd_sub' hd dvd_rfl

theorem bxor_bxor_cancel (a b : Bytes) (h : a.length = b.length) :
    bxor (bxor a b) b = a := by
  induction a generalizing b with
  | nil => simp [bxor]
  | cons x xs ih =>
    cases b with
    | nil => simp at h
    | cons y ys =>
      simp only [bxor, List.zipWith_cons_cons] at *
      rw [ih ys (by simpa using h)]
      have hx : Nat.xor (Nat.xor x y) y = x := by
        show x ^^^ y ^^^ y = x
        rw [Nat.xor_assoc, Nat.xor_self, Nat.xor_zero]
      rw [hx]

theorem bxor_length (a b : Bytes) : (bxor a b).length = min a.length b.length := by
  simp [bxor]

theorem chunksFuel_congr (f1 f2 : Nat) (d : Bytes) (h1 : d.length ≤ f1) (h2 : d.length ≤ f2) :
    chunksFuel f1 d = chunksFuel f2 d := by
  induction f1 generalizing f2 d with
  | zero =>
    have : d = [] := List.eq_nil_of_length_eq_zero (Nat.le_zero.mp h1)
    subst this
    cases f2 <;> rfl
  | succ n ih =>
    cases d with
    | nil => cases f2 <;> rfl
    | cons x xs =>
      cases f2 with
      | zero => exact absurd h2 (by simp)
      | succ m =>
        simp only [chunksFuel]
        have hd : ((x :: xs).drop blockSize).length = (x :: xs).length - blockSize := by simp
        have hx1 : (x :: xs).length ≤ n + 1 := h1
        have hx2 : (x :: xs).length ≤ m + 1 := h2
        congr 1
        exact ih m _ (by rw [hd]; simp only [blockSize]; omega)
          (by rw [hd]; simp only [blockSize]; omega)

theorem chunks16_append_block (b r : Bytes) (hb : b.length = blockSize) :
    chunks16 (b ++ r) = b :: chunks16 r := by
  cases b with
  | nil => simp [blockSize] at hb
  | cons b0 bt =>
    have hsucc : ((b0 :: bt) ++ r).length = (blockSize - 1 + r.length) + 1 := by
      simp only [List.length_append, hb, blockSize]
      omega
    unfold chunks16
    rw [hsucc]
    show chunksFuel ((blockSize - 1 + r.length) + 1) (b0 :: (bt ++ r)) = _
    simp only [chunksFuel]
    have htake : (b0 :: (bt ++ r)).take blockSize = b0 :: bt := by
      show ((b0 :: bt) ++ r).take blockSize = b0 :: bt
      rw [← hb]
      exact List.take_left _ r
    have hdrop : (b0 :: (bt ++ r)).drop blockSize = r := by
      show ((b0 :: bt) ++ r).drop blockSize = r
      rw [← hb]
      exact List.drop_left _ r
    rw [htake, hdrop]
    rw [chunksFuel_congr (blockSize - 1 + r.length) r.length r
      (by simp only [blockSize]; omega) (Nat.le_refl _)]

/-- Re-chunking the flattening of a list of 16-byte blocks recovers the blocks. -/
theorem chunks16_flatten_blocks (bs : List Bytes) (h : ∀ b ∈ bs, b.length = blockSize) :
    chunks16 bs.flatten = bs := by
  induction bs with
  | nil => rfl
  | cons b rest ih =>
    simp only [List.flatten_cons]
    rw [chunks16_append_block b rest.flatten (h b (by simp))]
    rw [ih (fun x hx => h x (by simp [hx]))]

theorem cbcEncBlocks_length (E : Bytes → Bytes → Bytes) (key : Bytes)
    (hE : ∀ k b, b.length = blockSize → (E k b).length = blockSize) :
    ∀ (bs : List Bytes) (prev : Bytes), prev.length = blockSize →
      (∀ b ∈ bs, b.length = blockSize) →
      ∀ c ∈ cbcEncBlocks E key prev bs, c.length = blockSize := by
  intro bs
  induction bs with
  | nil => intro prev _ _ c hc; simp [cbcEncBlocks] at hc
  | cons b rest ih =>
    intro prev hprev hbs c hc
    simp only [cbcEncBlocks, List.mem_cons] at hc
    have hxlen : (bxor b prev).length = blockSize := by
      rw [bxor_length, hbs b (by simp), hprev]; simp
    have hclen : (E key (bxor b prev)).length = blockSize := hE key _ hxlen
    rcases hc with hc | hc
    · subst hc; exact hclen
    · exact ih _ hclen (fun x hx => hbs x (by simp [hx])) c hc

/-- CBC decryption inverts CBC encryption block-wise, given an invertible,
length-preserving block cipher, a 16-byte IV and 16-byte plaintext blocks. -/
theorem cbcDecBlocks_cbcEncBlocks (E D : Bytes → Bytes → Bytes) (key : Bytes)
    (hDE : ∀ k b, b.length = blockSize → D k (E k b) = b)
    (hE : ∀ k b, b.length = blockSize → (E k b).length = blockSize) :
    ∀ (bs : List Bytes) (prev : Bytes), prev.length = blockSize →
      (∀ b ∈ bs, b.length = blockSize) →
      cbcDecBlocks D key prev (cbcEncBlocks E key prev bs) = bs := by
  intro bs
  induction bs with
  | nil => intro prev _ _; simp [cbcEncBlocks, cbcDecBlocks]
  | cons b rest ih =>
    intro prev hprev hbs
    simp only [cbcEncBlocks, cbcDecBlocks]
    have hblen : b.length = blockSize := hbs b (by simp)
    have hxlen : (bxor b prev).length = blockSize := by
      rw [bxor_length, hblen, hprev]; simp
    rw [hDE key _ hxlen]
    rw [bxor_bxor_cancel b prev (by rw [hblen, hprev])]
    rw [ih _ (hE key _ hxlen) (fun x hx => hbs x (by simp [hx]))]

/-- PKCS#7 padding always produces a whole number of 16-byte blocks. -/
theorem pad_data_length_dvd (d : Bytes) : blockSize ∣ (_pad_data d).length := by
  simp only [_pad_data, List.length_append, List.length_replicate, blockSize]
  omega

/-- Unpadding inverts padding: `_unpad_data (_pad_data d) = some d`. -/
theorem unpad_pad (d : Bytes) : _unpad_data (_pad_data d) = some d := by
  have hp : 1 ≤ blockSize - d.length % blockSize := by
    have : d.length % blockSize < blockSize := Nat.mod_lt _ (by simp [blockSize])
    omega
  simp only [_pad_data, _unpad_data]
  set p := blockSize - d.length % blockSize with hpdef
  have hrep : List.replicate p p = List.replicate (p - 1) p ++ [p] := by
    have h1 : p = (p - 1) + 1 := by omega
    calc List.replicate p p = List.replicate ((p - 1) + 1) p := by rw [← h1]
      _ = List.replicate (p - 1) p ++ [p] := by rw [List.replicate_succ']
  rw [hrep, ← List.append_assoc]
  rw [List.getLast?_concat]
  have hpne : ¬ p = 0 := by omega
  simp only [hpne, if_false]
  have hlen : (d ++ List.replicate (p - 1) p ++ [p]).length = d.length + p := by
    simp only [List.length_append, List.length_replicate, List.length_cons, List.length_nil]
    omega
  rw [hlen]
  have : d.length + p - p = d.length := by omega
  rw [this, List.append_assoc]
  exact congrArg some (List.take_left d _)

end PwMgr

namespace PwMgr

/-- The crypto round-trip, generalized over the decrypting password: any
password whose derived key coincides with the encrypting one's recovers
the plaintext, for every salt and every 16-byte IV. -/
theorem decrypt_encrypt_core (env : CryptoEnv) (data password password2 : String)
    (salt iv : Bytes) (hiv : iv.length = blockSize)
    (hkey : derive_key env password2 salt = derive_key env password salt) :
    decrypt_data env (encrypt_data env data password salt iv) password2 = some data := by
  simp only [encrypt_data, decrypt_data, env.b64_dec_enc, hkey]
  have hblocks : ∀ b ∈ chunks16 (_pad_data (env.utf8Enc data)), b.length = blockSize :=
    chunksFuel_length_eq _ _ (Nat.le_refl _) (pad_data_length_dvd _)
  have hdec : cbcDecrypt env.decBlock (derive_key env password salt) iv
      (cbcEncrypt env.encBlock (derive_key env password salt) iv (_pad_data (env.utf8Enc data)))
      = _pad_data (env.utf8Enc data) := by
    simp only [cbcEncrypt, cbcDecrypt]
    rw [chunks16_flatten_blocks _
      (cbcEncBlocks_length env.encBlock _ env.enc_length _ iv hiv hblocks)]
    rw [cbcDecBlocks_cbcEncBlocks env.encBlock env.decBlock _ env.dec_enc env.enc_length _ iv hiv
      hblocks]
    exact chunks16_flatten _
  rw [hdec, unpad_pad]
  show env.utf8Dec (env.utf8Enc data) = some data
  exact env.utf8_dec_enc data

/-- The crypto round-trip: decrypting an `encrypt_data` bundle with the
same password returns the plaintext, for every salt and every 16-byte IV. -/
theorem decrypt_encrypt (env : CryptoEnv) (data password : String) (salt iv : Bytes)
    (hiv : iv.length = blockSize) :
    decrypt_data env (encrypt_data env data password salt iv) password = some data :=
  decrypt_encrypt_core env data password password salt iv hiv rfl

end PwMgr
namespace PwMgr

/-- C1: For every string `data` and password, decrypting the bundle
produced by `CryptoService.encrypt_data` with the same password returns
exactly `data`: AES-256-CBC with PKCS#7 padding and the matching
decryption form a round-trip, for any caller-supplied or freshly
generated salt and any generated (16-byte) IV. -/
theorem claim_C1_roundtrip (env : CryptoEnv) (data password : String) (salt iv : Bytes)
    (hiv : iv.length = blockSize) :
    decrypt_data env (encrypt_data env data password salt iv) password = some data :=
  decrypt_encrypt env data password salt iv hiv

/-- Witness for C1: the round-trip at a concrete input. -/
theorem claim_C1_roundtrip_witness :
    iv16.length = blockSize ∧
    decrypt_data envC (encrypt_data envC "secret" "pw" [] iv16) "pw" = some "secret" :=
  ⟨rfl, claim_C1_roundtrip envC "secret" "pw" [] iv16 rfl⟩

/-- Counterexample to C2 as stated: in the model (which constrains the
abstract PBKDF2 only as a function — and real PBKDF2 does map distinct
passwords to colliding 32-byte keys), decrypting with a different
password can return a value: nothing in the code authenticates the
ciphertext or validates the padding bytes. -/
theorem claim_C2_counterexample :
    ¬ ("wrong-pw" = "pw") ∧
    decrypt_data envC (encrypt_data envC "secret" "pw" [] iv16) "wrong-pw" = some "secret" :=
  ⟨by decide, by decide⟩

/-- C2 (amended): `decrypt_data` returns no value (rather than raising)
whenever a pipeline step fails — base64 decoding of any of the three
fields, or unpadding of the AES-CBC output; but a wrong password is not
guaranteed to fail: whenever the key derived from the wrong password
coincides with the right one's, the original plaintext is returned. -/
theorem claim_C2_amended :
    (∀ (env : CryptoEnv) (data password password2 : String) (salt iv : Bytes),
      iv.length = blockSize →
      env.kdf (env.utf8Enc password2) salt = env.kdf (env.utf8Enc password) salt →
      decrypt_data env (encrypt_data env data password salt iv) password2 = some data) ∧
    (∀ (env : CryptoEnv) (info : EncBundle) (password : String),
      env.b64Dec info.encrypted_data = none ∨ env.b64Dec info.salt = none ∨
        env.b64Dec info.iv = none →
      decrypt_data env info password = none) ∧
    (∀ (env : CryptoEnv) (info : EncBundle) (password : String) (ct salt iv : Bytes),
      env.b64Dec info.encrypted_data = some ct → env.b64Dec info.salt = some salt →
      env.b64Dec info.iv = some iv →
      _unpad_data (cbcDecrypt env.decBlock (derive_key env password salt) iv ct) = none →
      decrypt_data env info password = none) := by
  refine ⟨?_, ?_, ?_⟩
  · intro env data password password2 salt iv hiv hkey
    exact decrypt_encrypt_core env data password password2 salt iv hiv hkey
  · intro env info password h
    unfold decrypt_data
    rcases h with h | h | h
    · rw [h]
    · rw [h]
      cases env.b64Dec info.encrypted_data <;> rfl
    · rw [h]
      cases env.b64Dec info.encrypted_data
      · rfl
      · cases env.b64Dec info.salt <;> rfl
  · intro env info password ct salt iv h1 h2 h3 h4
    simp only [decrypt_data, h1, h2, h3, h4]

/-- Witness for the amended C2: each clause at a concrete input. -/
theorem claim_C2_amended_witness :
    (iv16.length = blockSize ∧
     envC.kdf (envC.utf8Enc "wrong-pw") [] = envC.kdf (envC.utf8Enc "pw") [] ∧
     decrypt_data envC (encrypt_data envC "secret" "pw" [] iv16) "wrong-pw" = some "secret") ∧
    (envC.b64Dec (EncBundle.mk [] [] []).encrypted_data = none ∧
     decrypt_data envC (EncBundle.mk [] [] []) "pw" = none) ∧
    (envC.b64Dec [0] = some [] ∧
     _unpad_data (cbcDecrypt envC.decBlock (derive_key envC "pw" []) [] []) = none ∧
     decrypt_data envC (EncBundle.mk [0] [0] [0]) "pw" = none) := by
  refine ⟨⟨rfl, rfl, claim_C2_amended.1 envC "secret" "pw" "wrong-pw" [] iv16 rfl rfl⟩,
    ⟨rfl, claim_C2_amended.2.1 envC (EncBundle.mk [] [] []) "pw" (Or.inl rfl)⟩,
    ⟨rfl, rfl, claim_C2_amended.2.2 envC (EncBundle.mk [0] [0] [0]) "pw" [] [] [] rfl rfl rfl rfl⟩⟩

end PwMgr

namespace PwMgr

theorem delete_entry_list_sublist (entry_id : String) (es : List PwEntry) :
    (delete_entry_list entry_id es).2.Sublist es := by
  induction es with
  | nil => simp [delete_entry_list]
  | cons e rest ih =>
    simp only [delete_entry_list]
    by_cases h : e.id = entry_id
    · rw [if_pos h]
      exact List.sublist_cons_self e rest
    · rw [if_neg h]
      exact List.Sublist.cons₂ e ih

/-- Counterexample to C4 as stated: `update_entry` replaces by id without
re-checking the (platform, username) pair, so updating one entry to carry
another entry's pair makes the update succeed and breaks uniqueness. -/
theorem claim_C4_counterexample :
    uniquePairs (DataStore.mk
      [PwEntry.mk "GitHub" "alice" (EncBundle.mk [] [] []) "" "1" 0 0 90,
       PwEntry.mk "GitLab" "bob" (EncBundle.mk [] [] []) "" "2" 0 0 90]
      none appDefaults "1.0.0").entries ∧
    (update_entry (DataStore.mk
      [PwEntry.mk "GitHub" "alice" (EncBundle.mk [] [] []) "" "1" 0 0 90,
       PwEntry.mk "GitLab" "bob" (EncBundle.mk [] [] []) "" "2" 0 0 90]
      none appDefaults "1.0.0") "2"
      (PwEntry.mk "GitHub" "alice" (EncBundle.mk [] [] []) "" "x" 0 0 90) 5).1 = true ∧
    ¬ uniquePairs (update_entry (DataStore.mk
      [PwEntry.mk "GitHub" "alice" (EncBundle.mk [] [] []) "" "1" 0 0 90,
       PwEntry.mk "GitLab" "bob" (EncBundle.mk [] [] []) "" "2" 0 0 90]
      none appDefaults "1.0.0") "2"
      (PwEntry.mk "GitHub" "alice" (EncBundle.mk [] [] []) "" "x" 0 0 90) 5).2.entries := by
  refine ⟨by decide, by decide, by decide⟩

/-- C4 (amended): `add_entry` returns false and leaves the entry list
unchanged when an entry with the same (platform, username) exists, and
`add_entry` and `delete_entry` preserve the uniqueness invariant;
`update_entry` does not preserve it in general (it replaces by id without
re-checking the pair). -/
theorem claim_C4_amended :
    (∀ (store : DataStore) (entry : PwEntry),
      (∃ e ∈ store.entries, e.platform = entry.platform ∧ e.username = entry.username) →
      (add_entry store entry).1 = false ∧ (add_entry store entry).2 = store) ∧
    (∀ (store : DataStore) (entry : PwEntry), uniquePairs store.entries →
      uniquePairs (add_entry store entry).2.entries) ∧
    (∀ (store : DataStore) (entry_id : String), uniquePairs store.entries →
      uniquePairs (delete_entry store entry_id).2.entries) := by
  refine ⟨?_, ?_, ?_⟩
  · intro store entry h
    obtain ⟨e, he, hp, hu⟩ := h
    have hany : store.entries.any
        (fun ex => ex.platform = entry.platform && ex.username = entry.username) = true :=
      List.any_eq_true.mpr ⟨e, he, by simp [hp, hu]⟩
    simp [add_entry, hany]
  · intro store entry h
    unfold add_entry
    by_cases hany : store.entries.any
        (fun ex => ex.platform = entry.platform && ex.username = entry.username) = true
    · rw [if_pos hany]
      exact h
    · rw [if_neg hany]
      show ((store.entries ++ [entry]).map entryKey).Nodup
      rw [List.map_append, List.nodup_append]
      refine ⟨h, by simp, ?_⟩
      intro k hk hk2
      simp only [List.map_cons, List.map_nil, List.mem_singleton] at hk2
      subst hk2
      obtain ⟨ex, hex, hkey⟩ := List.mem_map.mp hk
      have hfalse := List.any_eq_false.mp (Bool.not_eq_true _ ▸ hany) ex hex
      have hplat : ex.platform = entry.platform := congrArg Prod.fst hkey
      have huser : ex.username = entry.username := congrArg Prod.snd hkey
      simp [hplat, huser] at hfalse
  · intro store entry_id h
    unfold delete_entry
    show (((delete_entry_list entry_id store.entries).2).map entryKey).Nodup
    exact h.sublist ((delete_entry_list_sublist entry_id store.entries).map entryKey)

/-- Witness for the amended C4: each clause at a concrete input. -/
theorem claim_C4_amended_witness :
    ((∃ e ∈ (DataStore.mk [PwEntry.mk "GitHub" "alice" (EncBundle.mk [] [] []) "" "1" 0 0 90]
        none appDefaults "1.0.0").entries,
        e.platform = "GitHub" ∧ e.username = "alice") ∧
     (add_entry (DataStore.mk [PwEntry.mk "GitHub" "alice" (EncBundle.mk [] [] []) "" "1" 0 0 90]
        none appDefaults "1.0.0")
        (PwEntry.mk "GitHub" "alice" (EncBundle.mk [] [] []) "" "9" 0 0 90)).1 = false) ∧
    uniquePairs (add_entry (DataStore.mk
      [PwEntry.mk "GitHub" "alice" (EncBundle.mk [] [] []) "" "1" 0 0 90]
      none appDefaults "1.0.0")
      (PwEntry.mk "GitLab" "bob" (EncBundle.mk [] [] []) "" "9" 0 0 90)).2.entries ∧
    uniquePairs (delete_entry (DataStore.mk
      [PwEntry.mk "GitHub" "alice" (EncBundle.mk [] [] []) "" "1" 0 0 90,
       PwEntry.mk "GitLab" "bob" (EncBundle.mk [] [] []) "" "2" 0 0 90]
      none appDefaults "1.0.0") "1").2.entries := by
  refine ⟨⟨⟨PwEntry.mk "GitHub" "alice" (EncBundle.mk [] [] []) "" "1" 0 0 90,
      by decide, by decide, by decide⟩, ?_⟩, ?_, ?_⟩
  · exact (claim_C4_amended.1 _ _
      ⟨PwEntry.mk "GitHub" "alice" (EncBundle.mk [] [] []) "" "1" 0 0 90,
        by decide, by decide, by decide⟩).1
  · exact claim_C4_amended.2.1 _ _ (by decide)
  · exact claim_C4_amended.2.2 _ _ (by decide)

theorem update_entry_list_spec (entry_id : String) (updated : PwEntry) (now : Nat)
    (pre post : List PwEntry) (e : PwEntry) (hpre : ∀ x ∈ pre, x.id ≠ entry_id)
    (he : e.id = entry_id) :
    update_entry_list entry_id updated now (pre ++ e :: post)
      = (true, pre ++ { updated with id := entry_id, created_at := e.created_at, updated_at := now } :: post) := by
  induction pre with
  | nil =>
    simp only [List.nil_append, update_entry_list]
    rw [if_pos he]
  | cons x xs ih =>
    simp only [List.cons_append, update_entry_list, List.append_eq]
    rw [if_neg (hpre x (by simp))]
    rw [ih (fun y hy => hpre y (by simp [hy]))]

/-- C10: on a store containing an entry with the given id (the first such
entry), `update_entry` returns true, stores an entry that keeps the
original id and `created_at`, takes every other field from the updated
entry with a refreshed `updated_at`, and leaves all other entries (and the
rest of the store) unchanged. -/
theorem claim_C10_update_frame (store : DataStore) (pre post : List PwEntry) (e : PwEntry)
    (entry_id : String) (updated : PwEntry) (now : Nat)
    (hsplit : store.entries = pre ++ e :: post)
    (hpre : ∀ x ∈ pre, x.id ≠ entry_id) (he : e.id = entry_id) :
    (update_entry store entry_id updated now).1 = true ∧
    (update_entry store entry_id updated now).2.entries
      = pre ++ { updated with id := entry_id, created_at := e.created_at, updated_at := now } :: post ∧
    (update_entry store entry_id updated now).2.master_config = store.master_config ∧
    (update_entry store entry_id updated now).2.app_settings = store.app_settings ∧
    (update_entry store entry_id updated now).2.version = store.version := by
  unfold update_entry
  rw [hsplit, update_entry_list_spec entry_id updated now pre post e hpre he]
  exact ⟨rfl, rfl, rfl, rfl, rfl⟩

/-- Witness for C10 at a concrete two-entry store. -/
theorem claim_C10_update_frame_witness :
    (update_entry (DataStore.mk
      [PwEntry.mk "GitHub" "alice" (EncBundle.mk [] [] []) "" "1" 0 0 90,
       PwEntry.mk "GitLab" "bob" (EncBundle.mk [1] [2] [3]) "n" "2" 7 8 90]
      none appDefaults "1.0.0") "2"
      (PwEntry.mk "Codeberg" "carol" (EncBundle.mk [4] [5] [6]) "m" "x" 1 2 99) 5).1 = true ∧
    (update_entry (DataStore.mk
      [PwEntry.mk "GitHub" "alice" (EncBundle.mk [] [] []) "" "1" 0 0 90,
       PwEntry.mk "GitLab" "bob" (EncBundle.mk [1] [2] [3]) "n" "2" 7 8 90]
      none appDefaults "1.0.0") "2"
      (PwEntry.mk "Codeberg" "carol" (EncBundle.mk [4] [5] [6]) "m" "x" 1 2 99) 5).2.entries
      = [PwEntry.mk "GitHub" "alice" (EncBundle.mk [] [] []) "" "1" 0 0 90,
         PwEntry.mk "Codeberg" "carol" (EncBundle.mk [4] [5] [6]) "m" "2" 7 5 99] := by
  have h := claim_C10_update_frame
    (DataStore.mk
      [PwEntry.mk "GitHub" "alice" (EncBundle.mk [] [] []) "" "1" 0 0 90,
       PwEntry.mk "GitLab" "bob" (EncBundle.mk [1] [2] [3]) "n" "2" 7 8 90]
      none appDefaults "1.0.0")
    [PwEntry.mk "GitHub" "alice" (EncBundle.mk [] [] []) "" "1" 0 0 90] []
    (PwEntry.mk "GitLab" "bob" (EncBundle.mk [1] [2] [3]) "n" "2" 7 8 90) "2"
    (PwEntry.mk "Codeberg" "carol" (EncBundle.mk [4] [5] [6]) "m" "x" 1 2 99) 5
    rfl (by decide) rfl
  exact ⟨h.1, h.2.1⟩

end PwMgr

namespace PwMgr

/-- C5: starting from a fresh `AuthenticationService`, three consecutive
failed `authenticate` calls (nonempty wrong passwords) produce a
locked-out state: the reported remaining lockout time is positive and at
most 300 seconds anywhere in the lockout window, and a further
`authenticate` call during the window — with any password and any
repository outcome — is rejected as locked out, reports no
attempts-remaining counter, never succeeds, and leaves the state (and in
particular the failed-attempt counter, still 3) unchanged. -/
theorem claim_C5_lockout (t1 t2 t3 tq t4 : Nat) (p1 p2 p3 p4 : String) (load4 : Bool)
    (h1 : p1 ≠ "") (h2 : p2 ≠ "") (h3 : p3 ≠ "")
    (htq1 : t3 ≤ tq) (htq2 : tq < t3 + lockout_duration)
    (ht4 : t4 < t3 + lockout_duration) :
    (authenticate (authenticate (authenticate initialAuthState t1 p1 false).2 t2 p2 false).2
        t3 p3 false).1.locked_out = true ∧
    (authenticate (authenticate (authenticate initialAuthState t1 p1 false).2 t2 p2 false).2
        t3 p3 false).2.failed_attempts = 3 ∧
    (get_lockout_remaining_time
        (authenticate (authenticate (authenticate initialAuthState t1 p1 false).2 t2 p2 false).2
          t3 p3 false).2 tq).1 = some (t3 + lockout_duration - tq) ∧
    0 < t3 + lockout_duration - tq ∧
    t3 + lockout_duration - tq ≤ lockout_duration ∧
    (authenticate
        (authenticate (authenticate (authenticate initialAuthState t1 p1 false).2 t2 p2 false).2
          t3 p3 false).2 t4 p4 load4).1.success = false ∧
    (authenticate
        (authenticate (authenticate (authenticate initialAuthState t1 p1 false).2 t2 p2 false).2
          t3 p3 false).2 t4 p4 load4).1.locked_out = true ∧
    (authenticate
        (authenticate (authenticate (authenticate initialAuthState t1 p1 false).2 t2 p2 false).2
          t3 p3 false).2 t4 p4 load4).1.remaining_attempts = none ∧
    (authenticate
        (authenticate (authenticate (authenticate initialAuthState t1 p1 false).2 t2 p2 false).2
          t3 p3 false).2 t4 p4 load4).2
      = (authenticate (authenticate (authenticate initialAuthState t1 p1 false).2 t2 p2 false).2
          t3 p3 false).2 := by
  have hs1 : (authenticate initialAuthState t1 p1 false).2
      = AuthState.mk 1 none false none none := by
    simp [authenticate, is_locked_out, initialAuthState, h1, MAX_LOGIN_ATTEMPTS]
  have hs2 : (authenticate (authenticate initialAuthState t1 p1 false).2 t2 p2 false).2
      = AuthState.mk 2 none false none none := by
    rw [hs1]
    simp [authenticate, is_locked_out, h2, MAX_LOGIN_ATTEMPTS]
  have hs3 : (authenticate (authenticate (authenticate initialAuthState t1 p1 false).2
        t2 p2 false).2 t3 p3 false).2
      = AuthState.mk 3 (some (t3 + lockout_duration)) false none none := by
    rw [hs2]
    simp [authenticate, is_locked_out, h3, MAX_LOGIN_ATTEMPTS]
  have hr3 : (authenticate (authenticate (authenticate initialAuthState t1 p1 false).2
        t2 p2 false).2 t3 p3 false).1.locked_out = true := by
    rw [hs2]
    simp [authenticate, is_locked_out, h3, MAX_LOGIN_ATTEMPTS]
  have hlockq : is_locked_out (AuthState.mk 3 (some (t3 + lockout_duration)) false none none) tq
      = (true, AuthState.mk 3 (some (t3 + lockout_duration)) false none none) := by
    simp only [is_locked_out]
    rw [if_neg (by omega)]
  have hlock4 : is_locked_out (AuthState.mk 3 (some (t3 + lockout_duration)) false none none) t4
      = (true, AuthState.mk 3 (some (t3 + lockout_duration)) false none none) := by
    simp only [is_locked_out]
    rw [if_neg (by omega)]
  refine ⟨hr3, by rw [hs3], ?_, by omega, by omega, ?_, ?_, ?_, ?_⟩
  · rw [hs3]
    simp only [get_lockout_remaining_time, hlockq]
  · rw [hs3]
    simp only [authenticate, hlock4]
  · rw [hs3]
    simp only [authenticate, hlock4]
  · rw [hs3]
    simp only [authenticate, hlock4]
  · rw [hs3]
    simp only [authenticate, hlock4, get_lockout_remaining_time]

/-- Witness for C5 at concrete times and passwords. -/
theorem claim_C5_lockout_witness :
    (authenticate (authenticate (authenticate initialAuthState 10 "a" false).2 20 "b" false).2
        30 "c" false).1.locked_out = true ∧
    (get_lockout_remaining_time
        (authenticate (authenticate (authenticate initialAuthState 10 "a" false).2 20 "b" false).2
          30 "c" false).2 40).1 = some 290 ∧
    (authenticate
        (authenticate (authenticate (authenticate initialAuthState 10 "a" false).2 20 "b" false).2
          30 "c" false).2 50 "c" true).1.success = false ∧
    (authenticate
        (authenticate (authenticate (authenticate initialAuthState 10 "a" false).2 20 "b" false).2
          30 "c" false).2 50 "c" true).2.failed_attempts = 3 := by
  have h := claim_C5_lockout 10 20 30 40 50 "a" "b" "c" "c" true
    (by decide) (by decide) (by decide) (by omega)
    (by simp only [lockout_duration]; omega) (by simp only [lockout_duration]; omega)
  refine ⟨h.1, ?_, h.2.2.2.2.2.1, ?_⟩
  · have hx := h.2.2.1
    simpa [lockout_duration] using hx
  · rw [h.2.2.2.2.2.2.2.2]
    exact h.2.1

end PwMgr

namespace PortScan

theorem intRange_eq_nil_of_gt (lo hi : Int) (h : hi < lo) : intRange lo hi = [] := by
  unfold intRange
  have hz : (hi + 1 - lo).toNat = 0 := by omega
  rw [hz]
  rfl

theorem parseToken_eq_spec (t : List Char) : parseToken t = specParseToken t := by
  unfold parseToken specParseToken
  cases hc : t.contains '-'
  · simp [hc]
  · simp only [hc, if_true]
    cases h1 : pyInt (splitDash1 t).1 <;> cases h2 : pyInt (splitDash1 t).2 <;>
      simp only [h1, h2]
    rename_i lo hi
    by_cases hle : lo ≤ hi
    · rw [if_pos hle]
    · rw [if_neg hle, intRange_eq_nil_of_gt lo hi (by omega)]

/-- C6: `from_port_string` behaves exactly as the spec describes — split
on commas, trim each token, expand hyphenated tokens inclusively when
both bounds parse, parse other tokens as single integers, drop
unparseable tokens silently, then keep only valid (1–65535) ports,
deduplicated and sorted — and on "80,443,8000-8002" it yields exactly
[80, 443, 8000, 8001, 8002]. -/
theorem claim_C6_from_port_string :
    (∀ s : List Char, from_port_string s = specPortRange s) ∧
    from_port_string "80,443,8000-8002".toList = [80, 443, 8000, 8001, 8002] := by
  constructor
  · intro s
    unfold from_port_string specPortRange postInitPortRange collectPorts
    exact congrArg sortedDedup (congrArg (List.filter _)
      (by rw [funext parseToken_eq_spec]))
  · decide

/-- C7: for every `ScanResult` (whose `__post_init__` recomputes the
stored statistics regardless of what the caller passed), `total_ports` is
the length of `port_info_list`, `occupied_ports` counts the LISTEN or
ESTABLISHED entries, `free_ports` is their difference and
`occupation_rate` is occupied/total × 100 (0 for an empty list); on 3
entries (2 LISTEN, 1 CLOSED) this gives 3, 2, 1 and a rate of 200/3 ≈ 66.7. -/
theorem claim_C7_scan_result_stats :
    (∀ (st : Nat) (ty : ScanType) (l : List PortInfo) (su : Bool) (em : String)
        (d : ℚ) (tp op : Nat),
      (mkScanResult st ty l su em d tp op).total_ports = l.length ∧
      (mkScanResult st ty l su em d tp op).occupied_ports
        = (l.filter PortInfo.is_occupied).length ∧
      (mkScanResult st ty l su em d tp op).free_ports
        = l.length - (l.filter PortInfo.is_occupied).length ∧
      (l.length = 0 → (mkScanResult st ty l su em d tp op).occupation_rate = 0) ∧
      (l.length ≠ 0 → (mkScanResult st ty l su em d tp op).occupation_rate
          = ((l.filter PortInfo.is_occupied).length : ℚ) / (l.length : ℚ) * 100)) ∧
    (mkScanResult 0 ScanType.LOCAL
        [PortInfo.mk 80 PortStatus.LISTEN Protocol.TCP "a" "" none none,
         PortInfo.mk 81 PortStatus.LISTEN Protocol.TCP "b" "" none none,
         PortInfo.mk 82 PortStatus.CLOSED Protocol.TCP "c" "" none none]
        true "" 0 0 0).total_ports = 3 ∧
    (mkScanResult 0 ScanType.LOCAL
        [PortInfo.mk 80 PortStatus.LISTEN Protocol.TCP "a" "" none none,
         PortInfo.mk 81 PortStatus.LISTEN Protocol.TCP "b" "" none none,
         PortInfo.mk 82 PortStatus.CLOSED Protocol.TCP "c" "" none none]
        true "" 0 0 0).occupied_ports = 2 ∧
    (mkScanResult 0 ScanType.LOCAL
        [PortInfo.mk 80 PortStatus.LISTEN Protocol.TCP "a" "" none none,
         PortInfo.mk 81 PortStatus.LISTEN Protocol.TCP "b" "" none none,
         PortInfo.mk 82 PortStatus.CLOSED Protocol.TCP "c" "" none none]
        true "" 0 0 0).free_ports = 1 ∧
    (mkScanResult 0 ScanType.LOCAL
        [PortInfo.mk 80 PortStatus.LISTEN Protocol.TCP "a" "" none none,
         PortInfo.mk 81 PortStatus.LISTEN Protocol.TCP "b" "" none none,
         PortInfo.mk 82 PortStatus.CLOSED Protocol.TCP "c" "" none none]
        true "" 0 0 0).occupation_rate = 200 / 3 ∧
    (666 : ℚ) / 10 < 200 / 3 ∧ (200 : ℚ) / 3 < 667 / 10 := by
  refine ⟨?_, by decide, by decide, by decide, ?_, by norm_num, by norm_num⟩
  · intro st ty l su em d tp op
    refine ⟨rfl, rfl, rfl, ?_, ?_⟩
    · intro h
      simp only [ScanResult.occupation_rate, mkScanResult]
      rw [if_pos h]
    · intro h
      simp only [ScanResult.occupation_rate, mkScanResult]
      rw [if_neg h]
  · show (if (3 : Nat) = 0 then (0 : ℚ) else ((2 : Nat) : ℚ) / ((3 : Nat) : ℚ) * 100) = 200 / 3
    norm_num

end PortScan

namespace PwMgr

theorem pyChoice_mem (l : List Char) (n : Nat) (h : l ≠ []) : pyChoice l n ∈ l := by
  unfold pyChoice
  have hl : 0 < l.length := List.length_pos.mpr h
  have hlt : n % l.length < l.length := Nat.mod_lt _ hl
  rw [List.getD_eq_getElem l 'a' hlt]
  exact List.getElem_mem hlt

theorem gpCharset_ne_nil (il iu idg isym : Bool)
    (h : il = true ∨ iu = true ∨ idg = true ∨ isym = true) :
    gpCharset il iu idg isym ≠ [] := by
  cases il <;> cases iu <;> cases idg <;> cases isym <;> simp [gpCharset] at h ⊢ <;> decide

theorem gpCharset_cases (il iu idg isym : Bool) (c : Char)
    (h : c ∈ gpCharset il iu idg isym) :
    (il = true ∧ c ∈ lowercase.toList) ∨ (iu = true ∧ c ∈ uppercase.toList) ∨
    (idg = true ∧ c ∈ digits.toList) ∨ (isym = true ∧ c ∈ symbols.toList) := by
  cases il <;> cases iu <;> cases idg <;> cases isym <;>
    simp [gpCharset] at h ⊢ <;> tauto

theorem gpRequired_subset (il iu idg isym : Bool) (picks : Nat → Nat) (c : Char)
    (h : c ∈ gpRequired il iu idg isym picks) : c ∈ gpCharset il iu idg isym := by
  unfold gpRequired gpCharset at *
  simp only [List.mem_append] at h ⊢
  rcases h with ((h | h) | h) | h
  · left; left; left
    cases il with
    | false => simp at h
    | true =>
      simp only [if_true] at h ⊢
      simp only [List.mem_singleton] at h
      subst h
      exact pyChoice_mem _ _ (by decide)
  · left; left; right
    cases iu with
    | false => simp at h
    | true =>
      simp only [if_true] at h ⊢
      simp only [List.mem_singleton] at h
      subst h
      exact pyChoice_mem _ _ (by decide)
  · left; right
    cases idg with
    | false => simp at h
    | true =>
      simp only [if_true] at h ⊢
      simp only [List.mem_singleton] at h
      subst h
      exact pyChoice_mem _ _ (by decide)
  · right
    cases isym with
    | false => simp at h
    | true =>
      simp only [if_true] at h ⊢
      simp only [List.mem_singleton] at h
      subst h
      exact pyChoice_mem _ _ (by decide)

theorem gpRequired_length_le (il iu idg isym : Bool) (picks : Nat → Nat) :
    (gpRequired il iu idg isym picks).length ≤ 4 := by
  cases il <;> cases iu <;> cases idg <;> cases isym <;> simp [gpRequired]

/-- Counterexample to C8 as stated: the symbol pool has 26 characters,
not 25. -/
theorem claim_C8_counterexample :
    symbols.toList.length = 26 ∧ ¬ (symbols.toList.length = 25) := by
  refine ⟨by decide, by decide⟩

end PwMgr

namespace PwMgr

/-- C8 (amended — the claim miscounts the symbol pool, which has 26
characters, not 25): for every requested length ≥ 4 with at least one
class enabled, `generate_password` succeeds with a password of exactly
the requested length, containing at least one character from each
enabled pool and no character outside the union of the enabled pools —
for every outcome of the random choices and the shuffle; in particular
with symbols disabled no symbol-pool character ever appears. -/
theorem claim_C8_amended :
    symbols.toList.length = 26 ∧
    ∀ (length : Nat) (il iu idg isym : Bool) (picks : Nat → Nat)
      (shuffle : List Char → List Char),
      (∀ l : List Char, (shuffle l).Perm l) →
      4 ≤ length → (il = true ∨ iu = true ∨ idg = true ∨ isym = true) →
      ∃ pw : String, generate_password length il iu idg isym picks shuffle = some pw ∧
        pw.length = length ∧
        (il = true → ∃ c ∈ pw.data, c ∈ lowercase.toList) ∧
        (iu = true → ∃ c ∈ pw.data, c ∈ uppercase.toList) ∧
        (idg = true → ∃ c ∈ pw.data, c ∈ digits.toList) ∧
        (isym = true → ∃ c ∈ pw.data, c ∈ symbols.toList) ∧
        (∀ c ∈ pw.data,
          (il = true ∧ c ∈ lowercase.toList) ∨ (iu = true ∧ c ∈ uppercase.toList) ∨
          (idg = true ∧ c ∈ digits.toList) ∨ (isym = true ∧ c ∈ symbols.toList)) ∧
        (isym = false → ∀ c ∈ pw.data, c ∉ symbols.toList) := by
  refine ⟨by decide, ?_⟩
  intro length il iu idg isym picks shuffle hsh h4 hflag
  have hcs := gpCharset_ne_nil il iu idg isym hflag
  have hreqle : (gpRequired il iu idg isym picks).length ≤ length :=
    le_trans (gpRequired_length_le il iu idg isym picks) h4
  have hall_len :
      (gpRequired il iu idg isym picks ++
        (List.range (length - (gpRequired il iu idg isym picks).length)).map
          (fun i => pyChoice (gpCharset il iu idg isym) (picks (4 + i)))).length = length := by
    simp only [List.length_append, List.length_map, List.length_range]
    omega
  have htake :
      (gpRequired il iu idg isym picks ++
        (List.range (length - (gpRequired il iu idg isym picks).length)).map
          (fun i => pyChoice (gpCharset il iu idg isym) (picks (4 + i)))).take length
      = gpRequired il iu idg isym picks ++
        (List.range (length - (gpRequired il iu idg isym picks).length)).map
          (fun i => pyChoice (gpCharset il iu idg isym) (picks (4 + i))) :=
    List.take_of_length_le (le_of_eq hall_len)
  have hkey : generate_password length il iu idg isym picks shuffle
      = some (String.mk (shuffle
        (gpRequired il iu idg isym picks ++
          (List.range (length - (gpRequired il iu idg isym picks).length)).map
            (fun i => pyChoice (gpCharset il iu idg isym) (picks (4 + i)))))) := by
    unfold generate_password
    rw [if_neg (by omega), if_neg hcs, htake]
  have hperm := hsh
    (gpRequired il iu idg isym picks ++
      (List.range (length - (gpRequired il iu idg isym picks).length)).map
        (fun i => pyChoice (gpCharset il iu idg isym) (picks (4 + i))))
  have hmem_all : ∀ c,
      c ∈ (String.mk (shuffle
        (gpRequired il iu idg isym picks ++
          (List.range (length - (gpRequired il iu idg isym picks).length)).map
            (fun i => pyChoice (gpCharset il iu idg isym) (picks (4 + i)))))).data ↔
      c ∈ gpRequired il iu idg isym picks ++
        (List.range (length - (gpRequired il iu idg isym picks).length)).map
          (fun i => pyChoice (gpCharset il iu idg isym) (picks (4 + i))) := by
    intro c
    exact hperm.mem_iff
  have hreqmem : ∀ c ∈ gpRequired il iu idg isym picks,
      c ∈ (String.mk (shuffle
        (gpRequired il iu idg isym picks ++
          (List.range (length - (gpRequired il iu idg isym picks).length)).map
            (fun i => pyChoice (gpCharset il iu idg isym) (picks (4 + i)))))).data := by
    intro c hc
    exact (hmem_all c).mpr (List.mem_append_left _ hc)
  refine ⟨_, hkey, ?_, ?_, ?_, ?_, ?_, ?_, ?_⟩
  · show (String.mk _).length = length
    simpa [String.length, hperm.length_eq] using hall_len
  · intro hil
    refine ⟨pyChoice lowercase.toList (picks 0), ?_, pyChoice_mem _ _ (by decide)⟩
    apply hreqmem
    unfold gpRequired
    subst hil
    simp
  · intro hiu
    refine ⟨pyChoice uppercase.toList (picks 1), ?_, pyChoice_mem _ _ (by decide)⟩
    apply hreqmem
    unfold gpRequired
    subst hiu
    simp
  · intro hidg
    refine ⟨pyChoice digits.toList (picks 2), ?_, pyChoice_mem _ _ (by decide)⟩
    apply hreqmem
    unfold gpRequired
    subst hidg
    simp
  · intro hisym
    refine ⟨pyChoice symbols.toList (picks 3), ?_, pyChoice_mem _ _ (by decide)⟩
    apply hreqmem
    unfold gpRequired
    subst hisym
    simp
  · intro c hc
    have hc2 := (hmem_all c).mp hc
    rcases List.mem_append.mp hc2 with hr | hf
    · exact gpCharset_cases il iu idg isym c (gpRequired_subset il iu idg isym picks c hr)
    · obtain ⟨i, _, hi⟩ := List.mem_map.mp hf
      subst hi
      exact gpCharset_cases il iu idg isym _ (pyChoice_mem _ _ hcs)
  · intro hisym c hc
    have hc2 := (hmem_all c).mp hc
    have hcases : (il = true ∧ c ∈ lowercase.toList) ∨ (iu = true ∧ c ∈ uppercase.toList) ∨
        (idg = true ∧ c ∈ digits.toList) ∨ (isym = true ∧ c ∈ symbols.toList) := by
      rcases List.mem_append.mp hc2 with hr | hf
      · exact gpCharset_cases il iu idg isym c (gpRequired_subset il iu idg isym picks c hr)
      · obtain ⟨i, _, hi⟩ := List.mem_map.mp hf
        subst hi
        exact gpCharset_cases il iu idg isym _ (pyChoice_mem _ _ hcs)
    have hd1 : ∀ x ∈ lowercase.toList, x ∉ symbols.toList := by decide
    have hd2 : ∀ x ∈ uppercase.toList, x ∉ symbols.toList := by decide
    have hd3 : ∀ x ∈ digits.toList, x ∉ symbols.toList := by decide
    subst hisym
    rcases hcases with ⟨_, h⟩ | ⟨_, h⟩ | ⟨_, h⟩ | ⟨hfalse, _⟩
    · exact hd1 c h
    · exact hd2 c h
    · exact hd3 c h
    · exact absurd hfalse (by decide)

/-- Witness for the amended C8: length 16 with symbols disabled. -/
theorem claim_C8_amended_witness :
    (∀ l : List Char, ((fun x : List Char => x) l).Perm l) ∧ (4 ≤ 16) ∧
    ∃ pw : String,
      generate_password 16 true true true false (fun _ => 0) (fun x => x) = some pw ∧
      pw.length = 16 ∧
      (false = false → ∀ c ∈ pw.data, c ∉ symbols.toList) := by
  refine ⟨fun l => List.Perm.refl l, by omega, ?_⟩
  obtain ⟨pw, h1, h2, _, _, _, _, _, h8⟩ :=
    claim_C8_amended.2 16 true true true false (fun _ => 0) (fun x => x)
      (fun l => List.Perm.refl l) (by omega) (Or.inl rfl)
  exact ⟨pw, h1, h2, fun _ => h8 rfl⟩

end PwMgr

namespace PortScan

/-- C9: every profile in the `remote_servers.json` content written by
`ConfigManager.save_remote_configs` has an empty `password` field, and
two profile lists differing only in their password fields produce
identical saved contents — a plaintext password is never persisted. -/
theorem claim_C9_password_blanked :
    (∀ (configs : List RemoteConfig), ∀ c ∈ save_remote_configs configs, c.password = "") ∧
    (∀ (l1 l2 : List RemoteConfig),
      List.Forall₂ (fun a b => a.host = b.host ∧ a.username = b.username ∧
        a.private_key_path = b.private_key_path ∧ a.port = b.port ∧
        a.timeout = b.timeout ∧ a.name = b.name) l1 l2 →
      save_remote_configs l1 = save_remote_configs l2) := by
  constructor
  · intro configs c hc
    obtain ⟨x, _, hx⟩ := List.mem_map.mp hc
    rw [← hx]
  · intro l1 l2 h
    induction h with
    | nil => rfl
    | cons hab htail ih =>
      rename_i a b l1' l2'
      obtain ⟨h1, h2, h3, h4, h5, h6⟩ := hab
      simp only [save_remote_configs, List.map_cons]
      have hfa : ({ a with password := "" } : RemoteConfig)
          = { b with password := "" } := by
        cases a
        cases b
        simp_all
      rw [hfa]
      have hrest := ih
      simp only [save_remote_configs] at hrest
      rw [hrest]

/-- Witness for C9: a concrete profile list with a secret password. -/
theorem claim_C9_password_blanked_witness :
    (∀ c ∈ save_remote_configs [RemoteConfig.mk "h" "u" "secret" "" 22 10 "n"],
      c.password = "") ∧
    save_remote_configs [RemoteConfig.mk "h" "u" "secret" "" 22 10 "n"]
      = save_remote_configs [RemoteConfig.mk "h" "u" "other" "" 22 10 "n"] := by
  refine ⟨claim_C9_password_blanked.1 _, claim_C9_password_blanked.2 _ _ ?_⟩
  exact List.Forall₂.cons ⟨rfl, rfl, rfl, rfl, rfl, rfl⟩ List.Forall₂.nil

end PortScan

namespace PwMgr

theorem b64Enc_injective (env : CryptoEnv) (x y : Bytes) (h : env.b64Enc x = env.b64Enc y) :
    x = y := by
  have hx := env.b64_dec_enc x
  rw [h, env.b64_dec_enc y] at hx
  injection hx with h2
  exact h2.symm

theorem rotate_entries_ok (env : CryptoEnv) (old new : String) (salts ivs : Nat → Bytes)
    (now : Nat) (es : List PwEntry) (i : Nat)
    (h : ∀ e ∈ es, decrypt_data env e.encrypted_password old ≠ none) :
    (rotate_entries env old new salts ivs now es i).1 = true ∧
    List.Forall₂ (fun e e2 => ∃ p j, decrypt_data env e.encrypted_password old = some p ∧
        e2 = { e with encrypted_password := encrypt_data env p new (salts j) (ivs j), updated_at := now })
      es (rotate_entries env old new salts ivs now es i).2 := by
  induction es generalizing i with
  | nil => exact ⟨rfl, List.Forall₂.nil⟩
  | cons e rest ih =>
    have hd := h e (by simp)
    cases hdec : decrypt_data env e.encrypted_password old with
    | none => exact absurd hdec hd
    | some p =>
      obtain ⟨hok, hf⟩ := ih (i + 1) (fun x hx => h x (by simp [hx]))
      simp only [rotate_entries, hdec]
      exact ⟨hok, List.Forall₂.cons ⟨p, i, hdec, rfl⟩ hf⟩

theorem rotate_entries_abort (env : CryptoEnv) (old new : String) (salts ivs : Nat → Bytes)
    (now : Nat) (es : List PwEntry) (i : Nat)
    (h : ∃ e ∈ es, decrypt_data env e.encrypted_password old = none) :
    (rotate_entries env old new salts ivs now es i).1 = false := by
  induction es generalizing i with
  | nil => simp at h
  | cons e rest ih =>
    cases hdec : decrypt_data env e.encrypted_password old with
    | none => simp [rotate_entries, hdec]
    | some p =>
      obtain ⟨x, hx, hxd⟩ := h
      rcases List.mem_cons.mp hx with hxe | hx2
      · subst hxe
        rw [hdec] at hxd
        exact absurd hxd (by simp)
      · simp only [rotate_entries, hdec]
        exact ih (i + 1) ⟨x, hx2, hxd⟩

end PwMgr

namespace PwMgr

theorem change_master_password_success (env : CryptoEnv) (repo : Repo) (store : DataStore)
    (mc : MasterConfig) (old new : String) (entrySalts entryIvs : Nat → Bytes)
    (hashSalt fileSalt fileIv : Bytes) (now : Nat)
    (hds : repo.data_store = some store) (hmp : repo.master_password = some old)
    (hmc : store.master_config = some mc)
    (hok : (rotate_entries env old new entrySalts entryIvs now store.entries 0).1 = true) :
    change_master_password env repo old new entrySalts entryIvs hashSalt fileSalt fileIv now
      = (true,
         { data_file := some (encrypt_data env
             (env.jsonEnc { store with
               entries := (rotate_entries env old new entrySalts entryIvs now store.entries 0).2,
               master_config := some { mc with
                 password_hash := (hash_password env new hashSalt).1,
                 salt := (hash_password env new hashSalt).2,
                 updated_at := now } })
             new fileSalt fileIv),
           data_store := some { store with
             entries := (rotate_entries env old new entrySalts entryIvs now store.entries 0).2,
             master_config := some { mc with
               password_hash := (hash_password env new hashSalt).1,
               salt := (hash_password env new hashSalt).2,
               updated_at := now } },
           master_password := some new }) := by
  unfold change_master_password save_database _save_to_file
  rw [hds, hmp]
  simp [hok, hmc]

end PwMgr

namespace PwMgr

/-- C3: if a loaded `DataRepository` holds master password `old` and every
entry decrypts under `old`, then `change_master_password(old, new)`
succeeds, and for the resulting repository (whose saved vault file is the
store re-encrypted under `new`): loading with `new` succeeds, loading
with `old` fails (given that PBKDF2 does not collide on `old`/`new` at
the rotated salt and that decrypting the new file under the old key
either fails or yields the canonical payload), and `decrypt_password`
returns for every rotated entry exactly the plaintext it returned before
the rotation; and if any entry fails to decrypt under `old`,
`change_master_password` returns false. -/
theorem claim_C3_master_rotation :
    (∀ (env : CryptoEnv) (repo : Repo) (store : DataStore) (mc : MasterConfig)
        (old new : String) (entrySalts entryIvs : Nat → Bytes)
        (hashSalt fileSalt fileIv : Bytes) (now : Nat),
      repo.data_store = some store →
      repo.master_password = some old →
      store.master_config = some mc →
      (∀ e ∈ store.entries, decrypt_data env e.encrypted_password old ≠ none) →
      (∀ i, (entryIvs i).length = blockSize) →
      fileIv.length = blockSize →
      (change_master_password env repo old new entrySalts entryIvs hashSalt fileSalt fileIv
        now).1 = true ∧
      ∀ store2 : DataStore,
        (change_master_password env repo old new entrySalts entryIvs hashSalt fileSalt fileIv
          now).2.data_store = some store2 →
        env.jsonDec (env.jsonEnc store2) = some store2 →
        ((load_database env (change_master_password env repo old new entrySalts entryIvs
            hashSalt fileSalt fileIv now).2 new).1 = true ∧
         (env.kdf (env.utf8Enc old) hashSalt ≠ env.kdf (env.utf8Enc new) hashSalt →
          (decrypt_data env (encrypt_data env (env.jsonEnc store2) new fileSalt fileIv) old
              = none ∨
           decrypt_data env (encrypt_data env (env.jsonEnc store2) new fileSalt fileIv) old
              = some (env.jsonEnc store2)) →
          (load_database env (change_master_password env repo old new entrySalts entryIvs
              hashSalt fileSalt fileIv now).2 old).1 = false) ∧
         List.Forall₂ (fun e e2 =>
            decrypt_password env (change_master_password env repo old new entrySalts entryIvs
              hashSalt fileSalt fileIv now).2 e2 = decrypt_password env repo e)
           store.entries store2.entries)) ∧
    (∀ (env : CryptoEnv) (repo : Repo) (store : DataStore) (old new : String)
        (entrySalts entryIvs : Nat → Bytes) (hashSalt fileSalt fileIv : Bytes) (now : Nat),
      repo.data_store = some store →
      (∃ e ∈ store.entries, decrypt_data env e.encrypted_password old = none) →
      (change_master_password env repo old new entrySalts entryIvs hashSalt fileSalt fileIv
        now).1 = false) := by
  constructor
  · intro env repo store mc old new entrySalts entryIvs hashSalt fileSalt fileIv now
      hds hmp hmc hdec hivs hfiv
    obtain ⟨hok, hforall⟩ :=
      rotate_entries_ok env old new entrySalts entryIvs now store.entries 0 hdec
    have hch := change_master_password_success env repo store mc old new entrySalts entryIvs
      hashSalt fileSalt fileIv now hds hmp hmc hok
    refine ⟨by rw [hch], ?_⟩
    intro store2 hds2 hjson
    rw [hch] at hds2
    simp only [] at hds2
    have hstore2 : store2 = { store with
        entries := (rotate_entries env old new entrySalts entryIvs now store.entries 0).2,
        master_config := some { mc with
          password_hash := (hash_password env new hashSalt).1,
          salt := (hash_password env new hashSalt).2,
          updated_at := now } } := by
      injection hds2 with h2
      exact h2.symm
    subst hstore2
    have hD : decrypt_data env
        (encrypt_data env (env.jsonEnc { store with
          entries := (rotate_entries env old new entrySalts entryIvs now store.entries 0).2,
          master_config := some { mc with
            password_hash := (hash_password env new hashSalt).1,
            salt := (hash_password env new hashSalt).2,
            updated_at := now } }) new fileSalt fileIv) new
        = some (env.jsonEnc { store with
          entries := (rotate_entries env old new entrySalts entryIvs now store.entries 0).2,
          master_config := some { mc with
            password_hash := (hash_password env new hashSalt).1,
            salt := (hash_password env new hashSalt).2,
            updated_at := now } }) :=
      decrypt_encrypt env _ new fileSalt fileIv hfiv
    refine ⟨?_, ?_, ?_⟩
    · rw [hch]
      simp only [load_database, hD, hjson]
      simp only [verify_password, hash_password, env.b64_dec_enc]
      simp
    · intro hA hB
      rw [hch]
      have hver : verify_password env old (hash_password env new hashSalt).1
          (hash_password env new hashSalt).2 = false := by
        unfold verify_password hash_password
        simp only [env.b64_dec_enc]
        rw [decide_eq_false]
        intro hEq
        exact hA (b64Enc_injective env _ _ hEq)
      rcases hB with hB | hB
      · simp only [load_database, hB]
      · simp only [load_database, hB, hjson]
        simp [hver]
    · rw [hch]
      simp only []
      apply List.Forall₂.imp ?_ hforall
      intro a b hab
      obtain ⟨p, j, hpa, hb⟩ := hab
      subst hb
      have hDb := decrypt_encrypt env p new (entrySalts j) (entryIvs j) (hivs j)
      simp only [decrypt_password, hds, hmp, hpa, hDb]
  · intro env repo store old new entrySalts entryIvs hashSalt fileSalt fileIv now hds hfail
    unfold change_master_password
    rw [hds]
    cases hmp : repo.master_password with
    | none => rfl
    | some mp =>
      by_cases hom : old = mp
      · subst hom
        have habort :=
          rotate_entries_abort env old new entrySalts entryIvs now store.entries 0 hfail
        simp [habort]
      · simp [hom]

end PwMgr

namespace PwMgr

/-- Witness for C3: a concrete one-entry vault rotated from "oldpw123" to
"newpw456". -/
theorem claim_C3_master_rotation_witness :
    (repo3.data_store = some store3) ∧
    (∀ e ∈ store3.entries, decrypt_data envR e.encrypted_password "oldpw123" ≠ none) ∧
    (change_master_password envR repo3 "oldpw123" "newpw456" (fun _ => [5]) (fun _ => iv16)
      [11] [13] iv16 1).1 = true ∧
    (load_database envR (change_master_password envR repo3 "oldpw123" "newpw456"
      (fun _ => [5]) (fun _ => iv16) [11] [13] iv16 1).2 "newpw456").1 = true ∧
    (load_database envR (change_master_password envR repo3 "oldpw123" "newpw456"
      (fun _ => [5]) (fun _ => iv16) [11] [13] iv16 1).2 "oldpw123").1 = false ∧
    List.Forall₂ (fun e e2 =>
      decrypt_password envR (change_master_password envR repo3 "oldpw123" "newpw456"
        (fun _ => [5]) (fun _ => iv16) [11] [13] iv16 1).2 e2
        = decrypt_password envR repo3 e) store3.entries store3W.entries := by
  have h := claim_C3_master_rotation.1 envR repo3 store3 mc3 "oldpw123" "newpw456"
    (fun _ => [5]) (fun _ => iv16) [11] [13] iv16 1 rfl rfl rfl (by decide)
    (fun _ => rfl) rfl
  have h2 := h.2 store3W (by decide) (by decide)
  exact ⟨rfl, by decide, h.1, h2.1, h2.2.1 (by decide) (Or.inr (by decide)), h2.2.2⟩

end PwMgr

namespace PortScan

/-- Witness for C7: the statistics clauses instantiated on the concrete
3-entry result, discharging the nonemptiness hypothesis. -/
theorem claim_C7_scan_result_stats_witness :
    (([PortInfo.mk 80 PortStatus.LISTEN Protocol.TCP "a" "" none none,
       PortInfo.mk 81 PortStatus.LISTEN Protocol.TCP "b" "" none none,
       PortInfo.mk 82 PortStatus.CLOSED Protocol.TCP "c" "" none none] : List PortInfo).length
      ≠ 0) ∧
    (mkScanResult 0 ScanType.LOCAL
        [PortInfo.mk 80 PortStatus.LISTEN Protocol.TCP "a" "" none none,
         PortInfo.mk 81 PortStatus.LISTEN Protocol.TCP "b" "" none none,
         PortInfo.mk 82 PortStatus.CLOSED Protocol.TCP "c" "" none none]
        true "" 0 0 0).occupation_rate
      = ((([PortInfo.mk 80 PortStatus.LISTEN Protocol.TCP "a" "" none none,
           PortInfo.mk 81 PortStatus.LISTEN Protocol.TCP "b" "" none none,
           PortInfo.mk 82 PortStatus.CLOSED Protocol.TCP "c" "" none none]
            : List PortInfo).filter PortInfo.is_occupied).length : ℚ) / 3 * 100 := by
  refine ⟨by decide, ?_⟩
  have h := (claim_C7_scan_result_stats.1 0 ScanType.LOCAL
    [PortInfo.mk 80 PortStatus.LISTEN Protocol.TCP "a" "" none none,
     PortInfo.mk 81 PortStatus.LISTEN Protocol.TCP "b" "" none none,
     PortInfo.mk 82 PortStatus.CLOSED Protocol.TCP "c" "" none none]
    true "" 0 0 0).2.2.2.2 (by decide)
  simpa using h

end PortScan
